import Mathlib

/-!
Verification of the gesture classification-and-dispatch pipeline.

Shallow embedding of the Python sources:
* `src/gestures/detector.py`   — `GestureResult`, `GestureDetector`
* `src/gestures/validators.py` — `ConfidenceValidator`
* `src/core/gesture_handler.py`— `GestureHandler`, `HandlerRegistry`, `HandlerManager`
* `src/core/event_system.py`   — `Event`, `EventBus`
* `src/gestures/filters.py`    — the one-euro filter (declared in
  `src/gestures/__init__.py` but absent from the file; modelled from the spec)
* `src/inputs/gesture_input_production.py` — `GestureInputBase._process_frame`
  and its continuous-gesture helpers

Machine floats are modelled as rationals (`ℚ`); Python `None` as `Option`;
a raised exception as an `Except` error or an explicit boolean flag.
-/

/-- `GestureResult` from `src/gestures/detector.py`.  The `data` map and the
timestamp play no role in any claim about construction or validation; the
fields that do are the name and the confidence score. -/
structure GestureResult where
  name : String
  confidence : ℚ
  deriving DecidableEq, Repr

/-- `GestureResult.__post_init__`: construction raises `ValueError` unless
`0.0 <= confidence <= 1.0`.  Fallible construction is an `Except`. -/
def mkGestureResult (name : String) (confidence : ℚ) : Except String GestureResult :=
  if 0 ≤ confidence ∧ confidence ≤ 1 then
    Except.ok { name := name, confidence := confidence }
  else
    Except.error "Confidence must be 0.0-1.0"

/-- `ConfidenceValidator` state from `src/gestures/validators.py`:
threshold, required stability frame count, and the bounded name history. -/
structure ConfidenceValidator where
  min_confidence : ℚ
  stability_frames : Nat
  gesture_history : List String
  deriving DecidableEq, Repr

/-- `ConfidenceValidator.validate` from `src/gestures/validators.py` lines
34-63, state-passing style.  `none` models Python `result is None`.
The source appends the name, pops the oldest entry once the history exceeds
`stability_frames`, and answers `True` exactly when the history holds at
least `stability_frames` entries and `len(set(history)) == 1`. -/
def ConfidenceValidator.validate (v : ConfidenceValidator) (result : Option GestureResult) :
    ConfidenceValidator × Bool :=
  match result with
  | none => (v, false)
  | some r =>
    if r.confidence < v.min_confidence then (v, false)
    else
      let hist0 := v.gesture_history ++ [r.name]
      let hist := if v.stability_frames < hist0.length then hist0.tail else hist0
      let ok :=
        if v.stability_frames ≤ hist.length then
          match hist with
          | [] => false          -- len(set([])) == 1 is False
          | h :: t => t.all (fun s => s == h)
        else false
      ({ v with gesture_history := hist }, ok)

/-- Feed a sequence of per-tick results through a `ConfidenceValidator`,
collecting the verdicts in order. -/
def ConfidenceValidator.runSeq (v : ConfidenceValidator) :
    List (Option GestureResult) → ConfidenceValidator × List Bool
  | [] => (v, [])
  | r :: rs =>
    let (v1, b) := v.validate r
    let (v2, bs) := v1.runSeq rs
    (v2, b :: bs)

/-- The validator semantics asserted by the spec sentence behind claim C6,
written from the spec words for comparison with the source embedding above:
a consecutive counter of equal-named results at/above the threshold, reset
to zero by a `none` tick or by a differently-named result. -/
structure ClaimedCounterValidator where
  min_confidence : ℚ
  stability_frames : Nat
  counter : Nat
  last_name : Option String
  deriving DecidableEq, Repr

/-- One claimed-validator step: `none` resets the counter; a qualifying
result increments it when the name repeats, otherwise restarts it at 1;
valid once the counter reaches `stability_frames`. -/
def ClaimedCounterValidator.validate (v : ClaimedCounterValidator)
    (result : Option GestureResult) : ClaimedCounterValidator × Bool :=
  match result with
  | none => ({ v with counter := 0, last_name := none }, false)
  | some r =>
    if r.confidence < v.min_confidence then (v, false)
    else
      let c := if v.last_name = some r.name then v.counter + 1 else 1
      ({ v with counter := c, last_name := some r.name },
       decide (v.stability_frames ≤ c))

/-- Feed a sequence through the claimed counter validator. -/
def ClaimedCounterValidator.runSeq (v : ClaimedCounterValidator) :
    List (Option GestureResult) → ClaimedCounterValidator × List Bool
  | [] => (v, [])
  | r :: rs =>
    let (v1, b) := v.validate r
    let (v2, bs) := v1.runSeq rs
    (v2, b :: bs)

/-! ## Stable descending sort

Python `list.sort(key=..., reverse=True)` is a stable sort.  Both
`GestureDetector.detect` (key = confidence) and
`HandlerRegistry.get_for_gesture` (key = priority) rely on it.  The
embedding uses a stable insertion sort: each element is inserted after
every already-placed element whose key is at least its own, which is
exactly the stability contract of CPython's sort under `reverse=True`. -/

/-- Insert `x` into a descending-sorted list, after all elements whose key
is ≥ `key x`. -/
def insertDescBy {α : Type} (key : α → ℚ) (x : α) : List α → List α
  | [] => [x]
  | y :: t => if key y < key x then x :: y :: t else y :: insertDescBy key x t

/-- Stable descending sort by a rational-valued key. -/
def sortDescBy {α : Type} (key : α → ℚ) (l : List α) : List α :=
  l.foldl (fun acc x => insertDescBy key x acc) []

/-- `GestureDetector` state from `src/gestures/detector.py` lines 71-92:
the registered classifiers are abstracted behind the per-tick result list
(this instance-level embedding keeps the threshold, the tick counter and
the bounded result history). -/
structure GestureDetector where
  min_confidence : ℚ
  detection_count : Nat
  history : List GestureResult
  max_history : Nat
  deriving DecidableEq, Repr

/-- A fresh detector, as built by `GestureDetector.__init__`. -/
def GestureDetector.init (minConf : ℚ) : GestureDetector :=
  { min_confidence := minConf, detection_count := 0, history := [], max_history := 30 }

/-- `GestureDetector.detect` from `src/gestures/detector.py` lines 120-163.
`tick` is `none` when `landmarks is None`; otherwise it carries the list of
non-`None` results the registered classifiers returned this tick, in
classifier-registration (priority) order — a classifier that raised is
caught and contributes nothing, exactly like an absent entry.  The source
filters by `confidence >= min_confidence`, stable-sorts descending by
confidence, bumps the tick counter, and pushes the top result onto the
bounded history. -/
def GestureDetector.detect (d : GestureDetector) (tick : Option (List GestureResult)) :
    GestureDetector × List GestureResult :=
  match tick with
  | none => (d, [])
  | some rs =>
    let results := rs.filter (fun r => d.min_confidence ≤ r.confidence)
    let results := sortDescBy (fun r => r.confidence) results
    let d := { d with detection_count := d.detection_count + 1 }
    let d :=
      match results with
      | [] => d
      | top :: _ =>
        let h0 := d.history ++ [top]
        { d with history := if d.max_history < h0.length then h0.tail else h0 }
    (d, results)

/-- `GestureDetector.detect_best` from `src/gestures/detector.py` lines
165-177: the head of the sorted result list, when any. -/
def GestureDetector.detect_best (d : GestureDetector) (tick : Option (List GestureResult)) :
    GestureDetector × Option GestureResult :=
  let (d1, results) := d.detect tick
  (d1, results.head?)

/-- The per-tick detection/validation chain of
`GestureInputBase._process_frame` (`src/inputs/gesture_input_production.py`
lines 190-261): run `detect_best`, and only when it yields a result run the
confidence validator; emit the gesture name exactly when the validator
answers `True`. -/
def detectAndValidate (d : GestureDetector) (v : ConfidenceValidator)
    (tick : Option (List GestureResult)) :
    GestureDetector × ConfidenceValidator × Option String :=
  let (d1, best) := d.detect_best tick
  match best with
  | none => (d1, v, none)
  | some r =>
    let (v1, ok) := v.validate (some r)
    (d1, v1, if ok then some r.name else none)

/-- Run `detectAndValidate` over a tick sequence, collecting the emitted
(confirmed or suppressed) gesture name of every tick. -/
def runDetectionPipeline (d : GestureDetector) (v : ConfidenceValidator) :
    List (Option (List GestureResult)) →
    GestureDetector × ConfidenceValidator × List (Option String)
  | [] => (d, v, [])
  | t :: ts =>
    let (d1, v1, out) := detectAndValidate d v t
    let (d2, v2, outs) := runDetectionPipeline d1 v1 ts
    (d2, v2, out :: outs)

/-- The hysteresis semantics asserted by spec §4.3 behind claim C1, written
from the spec words for comparison with the source embedding: append the
raw name to a bounded history of size `W`, confirm iff every entry of the
history equals the raw name (trivially true while the history is short),
and while not confirmable keep reporting a raw name equal to the
previously confirmed one (sticky). -/
structure ClaimedHysteresis where
  window : Nat
  history : List String
  confirmed : Option String
  deriving DecidableEq, Repr

/-- One claimed-hysteresis step on a raw classification name. -/
def ClaimedHysteresis.step (s : ClaimedHysteresis) (raw : String) :
    ClaimedHysteresis × Option String :=
  let h0 := s.history ++ [raw]
  let hist := if s.window < h0.length then h0.tail else h0
  if hist.all (fun n => n == raw) then
    ({ s with history := hist, confirmed := some raw }, some raw)
  else if s.confirmed = some raw then
    ({ s with history := hist }, some raw)
  else
    ({ s with history := hist }, none)

/-- Run the claimed hysteresis over a raw-name sequence. -/
def ClaimedHysteresis.runSeq (s : ClaimedHysteresis) :
    List String → ClaimedHysteresis × List (Option String)
  | [] => (s, [])
  | r :: rs =>
    let (s1, out) := s.step r
    let (s2, outs) := s1.runSeq rs
    (s2, out :: outs)

/-! ## Event system (`src/core/event_system.py`) -/

/-- `EventType` from `src/core/event_system.py`. -/
inductive EventType where
  | GESTURE
  | BUTTON
  | SYSTEM
  deriving DecidableEq, Repr

/-- `Event` from `src/core/event_system.py`: immutable dataclass.  The
`data` payload is a small string-keyed numeric map. -/
structure Event where
  type : EventType
  source : String
  action : String
  data : List (String × ℚ)
  timestamp : ℚ
  deriving DecidableEq, Repr

/-- One entry of an `EventBus` subscriber list.  Python stores function
objects and compares them by identity in `unsubscribe`; the embedding gives
every stored object an identity: `Sum.inl c` is the caller-held callback
object `c` itself (subscription without a filter), `Sum.inr w` is the `w`-th
fresh wrapper closure built by `_create_filtered_callback` — a distinct
object the caller never holds, so it compares unequal to every callback
passed to `unsubscribe`.  `cb` is the underlying callback the entry invokes
and `filt` the optional filter predicate (defunctionalised as an id
resolved by the environment at publish time). -/
structure Subscriber where
  ident : Nat ⊕ Nat
  cb : Nat
  filt : Option Nat
  deriving DecidableEq, Repr

/-- `EventBus` state from `src/core/event_system.py`: one subscriber list
per event type, a wrapper-freshness counter for the closures
`_create_filtered_callback` allocates, and the total-events counter. -/
structure EventBus where
  subsGesture : List Subscriber
  subsButton : List Subscriber
  subsSystem : List Subscriber
  nextWrapper : Nat
  event_count : Nat
  deriving DecidableEq, Repr

/-- The empty bus built by `EventBus.__init__`. -/
def EventBus.init : EventBus :=
  { subsGesture := [], subsButton := [], subsSystem := [], nextWrapper := 0, event_count := 0 }

/-- The subscriber list of one event type. -/
def EventBus.subs (bus : EventBus) : EventType → List Subscriber
  | EventType.GESTURE => bus.subsGesture
  | EventType.BUTTON => bus.subsButton
  | EventType.SYSTEM => bus.subsSystem

/-- Replace the subscriber list of one event type. -/
def EventBus.setSubs (bus : EventBus) (t : EventType) (l : List Subscriber) : EventBus :=
  match t with
  | EventType.GESTURE => { bus with subsGesture := l }
  | EventType.BUTTON => { bus with subsButton := l }
  | EventType.SYSTEM => { bus with subsSystem := l }

/-- `EventBus.subscribe` from `src/core/event_system.py` lines 83-104: with
no filter the callback object itself is appended; with a filter a fresh
wrapper closure is appended instead. -/
def EventBus.subscribe (bus : EventBus) (t : EventType) (cb : Nat) (filt : Option Nat) :
    EventBus :=
  match filt with
  | none =>
    bus.setSubs t (bus.subs t ++ [{ ident := Sum.inl cb, cb := cb, filt := none }])
  | some f =>
    let bus1 := bus.setSubs t
      (bus.subs t ++ [{ ident := Sum.inr bus.nextWrapper, cb := cb, filt := some f }])
    { bus1 with nextWrapper := bus.nextWrapper + 1 }

/-- `EventBus.unsubscribe` from `src/core/event_system.py` lines 106-117:
`if callback in list: list.remove(callback)` — remove the first entry equal
(by object identity) to the passed callback, or do nothing. -/
def EventBus.unsubscribe (bus : EventBus) (t : EventType) (cb : Nat) : EventBus :=
  bus.setSubs t ((bus.subs t).eraseP (fun s => s.ident = Sum.inl cb))

/-- What a callback does when invoked, defunctionalised: run without
effect, raise an exception, or mutate the bus subscriptions mid-publish. -/
inductive CBAction where
  | pure
  | raise
  | unsub (t : EventType) (cb : Nat)
  | sub (t : EventType) (cb : Nat) (filt : Option Nat)
  deriving DecidableEq, Repr

/-- Environment resolving defunctionalised behaviour: what each callback id
does when invoked, and each filter id's predicate. -/
structure CBEnv where
  act : Nat → CBAction
  pred : Nat → Event → Bool

/-- Record of one `publish`: the identities invoked (in order), the
underlying callbacks actually run (a wrapper whose filter rejects the event
does not run its callback), and the callbacks whose exception was caught. -/
structure PublishLog where
  invoked : List (Nat ⊕ Nat)
  ran : List Nat
  raised : List Nat
  deriving DecidableEq, Repr

/-- Invoke one stored subscriber entry on a live bus: apply the filter (if
any), then the callback's action; a `raise` is caught by the `try/except`
around each invocation in `publish`.  Returns the new live bus plus what
ran and what raised. -/
def invokeSubscriber (env : CBEnv) (bus : EventBus) (e : Event) (s : Subscriber) :
    EventBus × List Nat × List Nat :=
  let fire := match s.filt with
    | none => true
    | some f => env.pred f e
  if fire then
    match env.act s.cb with
    | CBAction.pure => (bus, [s.cb], [])
    | CBAction.raise => (bus, [s.cb], [s.cb])
    | CBAction.unsub t c => (bus.unsubscribe t c, [s.cb], [])
    | CBAction.sub t c f => (bus.subscribe t c f, [s.cb], [])
  else (bus, [], [])

/-- Iterate over the point-in-time snapshot while the live bus may change. -/
def publishLoop (env : CBEnv) (e : Event) :
    List Subscriber → EventBus → EventBus × PublishLog
  | [], bus => (bus, { invoked := [], ran := [], raised := [] })
  | s :: rest, bus =>
    let (bus1, ran1, raised1) := invokeSubscriber env bus e s
    let (bus2, log) := publishLoop env e rest bus1
    (bus2, { invoked := s.ident :: log.invoked,
             ran := ran1 ++ log.ran,
             raised := raised1 ++ log.raised })

/-- `EventBus.publish` from `src/core/event_system.py` lines 119-138: bump
the counter, take a point-in-time copy of the subscriber list of the
event's type, then invoke each snapshot entry against the live bus, each
invocation wrapped in `try/except`. -/
def EventBus.publish (env : CBEnv) (bus : EventBus) (e : Event) : EventBus × PublishLog :=
  let bus1 := { bus with event_count := bus.event_count + 1 }
  let snapshot := bus1.subs e.type
  publishLoop env e snapshot bus1

/-! ## Handler system (`src/core/gesture_handler.py`) -/

/-- What a handler's abstract `handle(context)` does: return a command
payload, return `None`, or raise (caught by `process_event`). -/
inductive HandleBehavior where
  | returns (command : String)
  | returnsNone
  | raises
  deriving DecidableEq, Repr

/-- `GestureHandler` state from `src/core/gesture_handler.py` lines 51-158.
`handle` is abstract in the source (subclass-provided); its behaviour is
embedded as data.  `_last_execution` starts at `0.0` in `__init__`. -/
structure GestureHandler where
  name : String
  enabled : Bool
  priority : Int
  gestures : List String
  cooldown : ℚ
  last_execution : ℚ
  behavior : HandleBehavior
  deriving DecidableEq, Repr

/-- `GestureHandler.can_handle` lines 103-120: disabled handlers match
nothing; an empty gesture list is a wildcard. -/
def GestureHandler.can_handle (h : GestureHandler) (gesture : String) : Bool :=
  if !h.enabled then false
  else if h.gestures.isEmpty then true
  else h.gestures.contains gesture

/-- `GestureHandler.should_execute` lines 122-135: pass (and stamp
`last_execution`) iff `current_time - last_execution >= cooldown`. -/
def GestureHandler.should_execute (h : GestureHandler) (current_time : ℚ) :
    GestureHandler × Bool :=
  if h.cooldown ≤ current_time - h.last_execution then
    ({ h with last_execution := current_time }, true)
  else (h, false)

/-- The handler registry's `_handlers` dict, in insertion order.
`HandlerRegistry.register` keys handlers by name and replaces on collision,
so the names of a well-formed registry are pairwise distinct. -/
abbrev HandlerRegistry := List GestureHandler

/-- `HandlerRegistry.get_for_gesture` lines 229-240: filter by
`can_handle`, then `sorted(key=priority, reverse=True)` — stable descending
sort by priority. -/
def getForGesture (reg : HandlerRegistry) (gesture : String) : List GestureHandler :=
  sortDescBy (fun h => (h.priority : ℚ)) (reg.filter (fun h => h.can_handle gesture))

/-- Replace the registry entry named `n` (the source mutates the shared
handler object held in the `_handlers` dict). -/
def updateHandler (reg : HandlerRegistry) (n : String) (h : GestureHandler) :
    HandlerRegistry :=
  reg.map (fun g => if g.name = n then h else g)

/-- Walk the selected handlers of one `process_event` call: for each, check
the cooldown against the live registry entry, run `handle` when allowed
(its exception caught), collect non-`None` results, and record the names of
the handlers whose `handle` was entered. -/
def processHandlers (e : Event) :
    List GestureHandler → HandlerRegistry →
    HandlerRegistry × List (String × String) × List String
  | [], reg => (reg, [], [])
  | h :: rest, reg =>
    let cur := (reg.find? (fun g => g.name = h.name)).getD h
    let (cur1, go) := cur.should_execute e.timestamp
    if go then
      let reg1 := updateHandler reg h.name cur1
      let res :=
        match cur1.behavior with
        | HandleBehavior.returns c => [(cur1.name, c)]
        | HandleBehavior.returnsNone => []
        | HandleBehavior.raises => []
      let (reg2, results, executed) := processHandlers e rest reg1
      (reg2, res ++ results, cur1.name :: executed)
    else
      let reg1 := updateHandler reg h.name cur1
      let (reg2, results, executed) := processHandlers e rest reg1
      (reg2, results, executed)

/-- `HandlerManager.process_event` lines 290-341: select the handlers for
the event's action, then attempt each in order; a handler on cooldown is
skipped with `continue`, a raising handler is caught and contributes no
result.  Returns the updated registry, the collected
`{handler, result}` pairs, and the names whose `handle` ran. -/
def processEvent (reg : HandlerRegistry) (e : Event) :
    HandlerRegistry × List (String × String) × List String :=
  let selected := getForGesture reg e.action
  processHandlers e selected reg

/-! ## One-euro filter -/

/-- A sampled scalar as the filter sees it: a finite machine float
(modelled as a rational) or a non-finite value (NaN/inf). -/
inductive FloatSample where
  | finite (q : ℚ)
  | nonfinite
  deriving DecidableEq, Repr

/-- Modelled from the spec: `OneEuroFilter` is exported by
`src/gestures/__init__.py` but its definition is missing from
`src/gestures/filters.py`; spec §4.2 gives its contract.  Configuration:
minimum cutoff, speed coefficient, derivative cutoff, and the rational
stand-in for the `2π` constant of `tau = 1/(2π·cutoff)`. -/
structure OneEuroConfig where
  min_cutoff : ℚ
  beta : ℚ
  d_cutoff : ℚ
  two_pi : ℚ
  deriving DecidableEq, Repr

/-- Modelled from the spec: the one-euro filter's state — last sample time,
last filtered value, last filtered derivative, and whether a first sample
has been accepted since the last reset. -/
structure OneEuroState where
  last_time : ℚ
  last_value : ℚ
  last_deriv : ℚ
  initialized : Bool
  deriving DecidableEq, Repr

/-- Modelled from the spec: `alpha(dt, cutoff) = 1 / (1 + tau/dt)` with
`tau = 1/(2π·cutoff)`. -/
def oneEuroAlpha (cfg : OneEuroConfig) (dt cutoff : ℚ) : ℚ :=
  let tau := 1 / (cfg.two_pi * cutoff)
  1 / (1 + tau / dt)

/-- Modelled from the spec: one update of the one-euro filter.
A non-finite input is rejected: the filter holds (returns) the last value
and its state is unchanged.  When uninitialised, or when more than one
second elapsed since the previous sample (clock-jump protection), the
filter resets: the new sample becomes the new steady state and is returned
unsmoothed.  Otherwise the derivative is low-passed with
`alpha(dt, d_cutoff)`, the adaptive cutoff is
`min_cutoff + beta·|filtered derivative|`, and the value is low-passed
with `alpha(dt, cutoff)`. -/
def oneEuroUpdate (cfg : OneEuroConfig) (s : OneEuroState) (t : ℚ) (x : FloatSample) :
    OneEuroState × ℚ :=
  match x with
  | FloatSample.nonfinite => (s, s.last_value)
  | FloatSample.finite v =>
    if !s.initialized ∨ 1 < t - s.last_time then
      ({ last_time := t, last_value := v, last_deriv := 0, initialized := true }, v)
    else
      let dt := t - s.last_time
      let dx := (v - s.last_value) / dt
      let ad := oneEuroAlpha cfg dt cfg.d_cutoff
      let dxHat := ad * dx + (1 - ad) * s.last_deriv
      let cutoff := cfg.min_cutoff + cfg.beta * |dxHat|
      let a := oneEuroAlpha cfg dt cutoff
      let xHat := a * v + (1 - a) * s.last_value
      ({ last_time := t, last_value := xHat, last_deriv := dxHat, initialized := true }, xHat)

/-- Feed a timed sample sequence through the one-euro filter, collecting
the outputs. -/
def oneEuroRun (cfg : OneEuroConfig) (s : OneEuroState) :
    List (ℚ × FloatSample) → OneEuroState × List ℚ
  | [] => (s, [])
  | (t, x) :: rest =>
    let (s1, y) := oneEuroUpdate cfg s t x
    let (s2, ys) := oneEuroRun cfg s1 rest
    (s2, y :: ys)

/-! ## Frame processing (`src/inputs/gesture_input_production.py`) -/

/-- A 2D normalized position (`{'x': ..., 'y': ...}`). -/
structure Pos where
  x : ℚ
  y : ℚ
  deriving DecidableEq, Repr

/-- The validated detection outcome of one tick, as consumed by the mode
branches of `_process_frame`: the confirmed gesture name, its confidence,
the optional `result.data['position']`, and the wrist landmark used as the
pinch-position fallback. -/
structure ValidResult where
  name : String
  confidence : ℚ
  pos : Option Pos
  wrist : Pos
  deriving DecidableEq, Repr

/-- One tick's input to `_process_frame`, with the detection sub-pipeline
(quality validator, landmark filter, detector, confidence validator — each
embedded above) abstracted into its per-tick outcome: `noHand` is
`hand_landmarks is None`; `lowQuality` a failed quality check; `noGesture`
covers `detect_best` returning `None` or the confidence validator
rejecting; `gesture r` a validated result. -/
inductive FrameOutcome where
  | noHand
  | lowQuality
  | noGesture
  | gesture (r : ValidResult)
  deriving DecidableEq, Repr

/-- The `GestureInputBase` per-frame state (`__init__` lines 98-111):
playback flag, pinch-mode flag with its start/last positions, V-mode flag
with its last position and exponentially smoothed delta, and the feedback
fields. -/
structure PFState where
  is_playing : Bool
  is_pinching : Bool
  pinch_start_pos : Option Pos
  last_pinch_pos : Option Pos
  is_v_gesturing : Bool
  last_v_pos : Option Pos
  smoothed_v_delta : Pos
  last_command : String
  last_confidence : ℚ
  deriving DecidableEq, Repr

/-- The initial `GestureInputBase` state. -/
def PFState.init : PFState :=
  { is_playing := true, is_pinching := false, pinch_start_pos := none,
    last_pinch_pos := none, is_v_gesturing := false, last_v_pos := none,
    smoothed_v_delta := { x := 0, y := 0 }, last_command := "None",
    last_confidence := 0 }

/-- An event published by `_publish_event`: the action string and, for
`ROTATE`/`NAVIGATE`, the delta payload. -/
structure PubEvent where
  action : String
  delta : Option Pos
  deriving DecidableEq, Repr

/-- `GestureInputBase._handle_pinch_drag` lines 263-316: position from the
result data, wrist as fallback; first pinched frame starts tracking and
publishes nothing; a later frame publishes a `ROTATE` delta scaled by
sensitivity 20 when either component moved by more than 0.001, then always
advances `last_pinch_pos`. -/
def handlePinchDrag (s : PFState) (r : ValidResult) : PFState × List PubEvent :=
  let current := r.pos.getD r.wrist
  if !s.is_pinching then
    ({ s with is_pinching := true, pinch_start_pos := some current,
              last_pinch_pos := some current }, [])
  else
    match s.last_pinch_pos with
    | none => (s, [])   -- unreachable: is_pinching is only set with a position
    | some lastPos =>
      let dx := current.x - lastPos.x
      let dy := current.y - lastPos.y
      let sensitivity : ℚ := 20
      let out :=
        if 1/1000 < |dx| ∨ 1/1000 < |dy| then
          [{ action := "ROTATE",
             delta := some { x := dx * sensitivity, y := dy * sensitivity } }]
        else []
      ({ s with last_pinch_pos := some current }, out)

/-- `GestureInputBase._handle_v_movement` lines 318-395: no position, no
effect; first V frame starts tracking and publishes nothing; a later frame
computes the mirror-corrected delta, and when either component exceeds the
0.001 deadzone scales it by sensitivity 150, blends it into the
exponentially smoothed delta with α = 0.85, and publishes the smoothed
`NAVIGATE` delta; `last_v_pos` always advances. -/
def handleVMovement (s : PFState) (r : ValidResult) : PFState × List PubEvent :=
  match r.pos with
  | none => (s, [])
  | some current =>
    if !s.is_v_gesturing then
      ({ s with is_v_gesturing := true, last_v_pos := some current }, [])
    else
      match s.last_v_pos with
      | none => (s, [])   -- unreachable: is_v_gesturing is only set with a position
      | some lastPos =>
        let dx := -(current.x - lastPos.x)
        let dy := current.y - lastPos.y
        let sensitivity : ℚ := 150
        let deadzone : ℚ := 1/1000
        if deadzone < |dx| ∨ deadzone < |dy| then
          let dxScaled := dx * sensitivity
          let dyScaled := dy * sensitivity
          let alpha : ℚ := 17/20
          let sm : Pos :=
            { x := alpha * dxScaled + (1 - alpha) * s.smoothed_v_delta.x,
              y := alpha * dyScaled + (1 - alpha) * s.smoothed_v_delta.y }
          ({ s with smoothed_v_delta := sm, last_v_pos := some current },
           [{ action := "NAVIGATE", delta := some sm }])
        else
          ({ s with last_v_pos := some current }, [])

/-- `GestureInputBase._process_frame` lines 140-261 (mode-branch logic; the
detection sub-pipeline arrives pre-evaluated in the `FrameOutcome`).
Returns the new state, the events published this tick, and the frame's
return value.  The display-only `title()`-casing of `last_command` for the
"other gesture" branch is not modelled (that field is compared only against
its literal sentinel values). -/
def processFrame (s : PFState) (f : FrameOutcome) :
    PFState × List PubEvent × Option String :=
  match f with
  | FrameOutcome.noHand =>
    let s1 := if s.is_pinching then
        { s with is_pinching := false, pinch_start_pos := none, last_pinch_pos := none }
      else s
    ({ s1 with last_command := "None", last_confidence := 0 }, [], none)
  | FrameOutcome.lowQuality =>
    ({ s with last_command := "Low Quality" }, [], none)
  | FrameOutcome.noGesture =>
    ({ s with last_command := "None" }, [], none)
  | FrameOutcome.gesture r =>
    let s := { s with last_confidence := r.confidence }
    if r.name = "CLOSED_FIST" then
      let (s1, out) :=
        if s.is_playing then ({ s with is_playing := false },
                              [{ action := "STOP", delta := none }])
        else (s, [])
      ({ s1 with last_command := "STOP (Fist)" }, out, some "CLOSED_FIST")
    else if r.name = "OPEN_PALM" then
      let (s1, out) :=
        if !s.is_playing then ({ s with is_playing := true },
                               [{ action := "PLAY", delta := none }])
        else (s, [])
      ({ s1 with last_command := "PLAY (Palm)" }, out, some "OPEN_PALM")
    else if r.name = "PINCH" then
      let s1 := if s.is_v_gesturing then
          { s with is_v_gesturing := false, last_v_pos := none }
        else s
      let (s2, out) := handlePinchDrag s1 r
      ({ s2 with last_command := "ROTATING (Pinch)" }, out, some "PINCH_DRAG")
    else if r.name = "V_GESTURE" then
      let s1 := if s.is_pinching then
          { s with is_pinching := false, pinch_start_pos := none, last_pinch_pos := none }
        else s
      let (s2, out) := handleVMovement s1 r
      ({ s2 with last_command := "NAVIGATING (V)" }, out, some "V_NAVIGATE")
    else
      let s1 := if s.is_pinching ∨ s.is_v_gesturing then
          { s with is_pinching := false, pinch_start_pos := none,
                   last_pinch_pos := none, is_v_gesturing := false, last_v_pos := none }
        else s
      ({ s1 with last_command := r.name }, [{ action := r.name, delta := none }], some r.name)

/-- Run `_process_frame` over a frame sequence, concatenating the published
events in order. -/
def processFrames (s : PFState) : List FrameOutcome → PFState × List PubEvent
  | [] => (s, [])
  | f :: fs =>
    let (s1, out, _) := processFrame s f
    let (s2, outs) := processFrames s1 fs
    (s2, out ++ outs)

/-- Dispatch a sequence of events through the manager, collecting the
names of the handlers whose `handle` ran for each event. -/
def processEvents (reg : HandlerRegistry) : List Event → HandlerRegistry × List (List String)
  | [] => (reg, [])
  | e :: es =>
    let (reg1, _, executed) := processEvent reg e
    let (reg2, rest) := processEvents reg1 es
    (reg2, executed :: rest)

/-! ## Helper lemmas about the stable descending sort -/

/-- Descending-sortedness by a key. -/
def SortedDescBy {α : Type} (key : α → ℚ) (l : List α) : Prop :=
  l.Pairwise (fun a b => key b ≤ key a)

theorem insertDescBy_perm {α : Type} (key : α → ℚ) (x : α) (l : List α) :
    List.Perm (insertDescBy key x l) (x :: l) := by
  induction l with
  | nil => simp [insertDescBy]
  | cons y t ih =>
    by_cases h : key y < key x
    · simp [insertDescBy, h]
    · simp only [insertDescBy, if_neg h]
      exact (ih.cons y).trans (List.Perm.swap x y t)

theorem mem_insertDescBy {α : Type} (key : α → ℚ) (x z : α) (l : List α) :
    z ∈ insertDescBy key x l ↔ z = x ∨ z ∈ l := by
  rw [(insertDescBy_perm key x l).mem_iff]
  simp

theorem insertDescBy_sorted {α : Type} (key : α → ℚ) (x : α) (l : List α)
    (hl : SortedDescBy key l) : SortedDescBy key (insertDescBy key x l) := by
  induction l with
  | nil => simp [insertDescBy, SortedDescBy]
  | cons y t ih =>
    rw [SortedDescBy, List.pairwise_cons] at hl
    by_cases h : key y < key x
    · rw [SortedDescBy, insertDescBy, if_pos h, List.pairwise_cons]
      constructor
      · intro b hb
        rcases List.mem_cons.mp hb with rfl | hb
        · exact le_of_lt h
        · exact le_trans (hl.1 b hb) (le_of_lt h)
      · rw [List.pairwise_cons]
        exact hl
    · rw [SortedDescBy, insertDescBy, if_neg h, List.pairwise_cons]
      refine ⟨?_, ih hl.2⟩
      intro b hb
      rcases (mem_insertDescBy key x b t).mp hb with rfl | hb
      · exact le_of_not_lt h
      · exact hl.1 b hb

theorem stepInsert_perm {α : Type} (key : α → ℚ) (l : List α) :
    ∀ acc : List α, List.Perm (l.foldl (fun a x => insertDescBy key x a) acc) (acc ++ l) := by
  induction l with
  | nil => intro acc; simp
  | cons x t ih =>
    intro acc
    have h1 := ih (insertDescBy key x acc)
    have h2 := (insertDescBy_perm key x acc).append_right t
    have h3 : List.Perm ((x :: acc) ++ t) (acc ++ x :: t) := by
      simpa using (@List.perm_middle _ x acc t).symm
    simpa using (h1.trans h2).trans h3

theorem sortDescBy_perm {α : Type} (key : α → ℚ) (l : List α) :
    List.Perm (sortDescBy key l) l := by
  simpa using stepInsert_perm key l []

theorem sortDescBy_sorted {α : Type} (key : α → ℚ) (l : List α) :
    SortedDescBy key (sortDescBy key l) := by
  suffices h : ∀ acc : List α, SortedDescBy key acc →
      SortedDescBy key (l.foldl (fun a x => insertDescBy key x a) acc) by
    exact h [] (by simp [SortedDescBy])
  induction l with
  | nil => intro acc hacc; exact hacc
  | cons x t ih =>
    intro acc hacc
    exact ih (insertDescBy key x acc) (insertDescBy_sorted key x acc hacc)

theorem filter_eq_nil_of_lt {α : Type} (key : α → ℚ) (p : ℚ) (y : α) (t : List α)
    (hs : SortedDescBy key (y :: t)) (hy : key y < p) :
    (y :: t).filter (fun z => key z == p) = [] := by
  rw [List.filter_eq_nil_iff]
  intro a ha
  rcases List.mem_cons.mp ha with rfl | ha
  · simp only [beq_iff_eq]
    exact ne_of_lt hy
  · rw [SortedDescBy, List.pairwise_cons] at hs
    simp only [beq_iff_eq]
    exact ne_of_lt (lt_of_le_of_lt (hs.1 a ha) hy)

theorem filter_insertDescBy_ne {α : Type} (key : α → ℚ) (p : ℚ) (x : α) (l : List α)
    (hx : key x ≠ p) :
    (insertDescBy key x l).filter (fun z => key z == p) =
      l.filter (fun z => key z == p) := by
  induction l with
  | nil => simp [insertDescBy, hx]
  | cons y t ih =>
    by_cases h : key y < key x
    · simp [insertDescBy, h, List.filter_cons, hx]
    · simp only [insertDescBy, if_neg h, List.filter_cons]
      by_cases hy : key y = p
      · simp [hy, ih]
      · simp [hy, ih]

theorem filter_insertDescBy_eq {α : Type} (key : α → ℚ) (p : ℚ) (x : α) (l : List α)
    (hs : SortedDescBy key l) (hx : key x = p) :
    (insertDescBy key x l).filter (fun z => key z == p) =
      l.filter (fun z => key z == p) ++ [x] := by
  induction l with
  | nil => simp [insertDescBy, hx]
  | cons y t ih =>
    by_cases h : key y < key x
    · have hnil : (y :: t).filter (fun z => key z == p) = [] :=
        filter_eq_nil_of_lt key p y t hs (hx ▸ h)
      simp only [insertDescBy, if_pos h, List.filter_cons]
      rw [List.filter_cons] at hnil
      simp only [hx, beq_self_eq_true, if_pos] at *
      by_cases hy : (key y == p) = true
      · simp [hy] at hnil
      · simp only [hy, if_neg, Bool.false_eq_true, not_false_iff, if_false] at hnil ⊢
        simp [hnil]
    · rw [SortedDescBy, List.pairwise_cons] at hs
      simp only [insertDescBy, if_neg h, List.filter_cons]
      by_cases hy : (key y == p) = true
      · simp [hy, ih hs.2]
      · simp only [hy, Bool.false_eq_true, not_false_iff, if_neg, if_false]
        exact ih hs.2

theorem sortDescBy_filter {α : Type} (key : α → ℚ) (p : ℚ) (l : List α) :
    (sortDescBy key l).filter (fun z => key z == p) =
      l.filter (fun z => key z == p) := by
  suffices h : ∀ acc : List α, SortedDescBy key acc →
      (l.foldl (fun a x => insertDescBy key x a) acc).filter (fun z => key z == p) =
        acc.filter (fun z => key z == p) ++ l.filter (fun z => key z == p) by
    simpa using h [] (by simp [SortedDescBy])
  induction l with
  | nil => intro acc hacc; simp
  | cons x t ih =>
    intro acc hacc
    simp only [List.foldl_cons]
    rw [ih (insertDescBy key x acc) (insertDescBy_sorted key x acc hacc)]
    by_cases hx : key x = p
    · rw [filter_insertDescBy_eq key p x acc hacc hx, List.filter_cons]
      simp [hx]
    · rw [filter_insertDescBy_ne key p x acc hx, List.filter_cons]
      simp [hx]

/-! ## Claim theorems -/

/-- C9: constructing a `GestureResult` with confidence `c` raises an error
iff `c` is outside `[0,1]`; every successfully constructed result has
confidence in `[0,1]`. -/
theorem gestureResult_confidence_in_unit_interval (name : String) (c : ℚ) :
    ((∃ e, mkGestureResult name c = Except.error e) ↔ (c < 0 ∨ 1 < c)) ∧
    (∀ r, mkGestureResult name c = Except.ok r →
      0 ≤ r.confidence ∧ r.confidence ≤ 1) := by
  unfold mkGestureResult
  by_cases h : 0 ≤ c ∧ c ≤ 1
  · rw [if_pos h]
    constructor
    · constructor
      · rintro ⟨e, he⟩
        cases he
      · rintro (hc | hc)
        · exact absurd h.1 (not_le.mpr hc)
        · exact absurd h.2 (not_le.mpr hc)
    · rintro r hr
      cases hr
      exact h
  · rw [if_neg h]
    constructor
    · constructor
      · intro _
        rcases not_and_or.mp h with h1 | h1
        · exact Or.inl (not_le.mp h1)
        · exact Or.inr (not_le.mp h1)
      · intro _
        exact ⟨"Confidence must be 0.0-1.0", rfl⟩
    · rintro r hr
      cases hr

/-- C9 witness: a concrete in-range construction succeeds with confidence
in `[0,1]`. -/
theorem gestureResult_confidence_in_unit_interval_witness :
    0 ≤ (GestureResult.mk "OPEN_PALM" (1/2)).confidence ∧
    (GestureResult.mk "OPEN_PALM" (1/2)).confidence ≤ 1 :=
  (gestureResult_confidence_in_unit_interval "OPEN_PALM" (1/2)).2
    (GestureResult.mk "OPEN_PALM" (1/2)) (by with_unfolding_all rfl)

/-- C6 counterexample: the claim says a `none` tick resets the consecutive
counter, so after `[A(0.8), A(0.8), none]` a single further `A(0.8)` could
not be valid; the source validator leaves its history untouched on `none`
and immediately answers valid.  The source run and the claim-side counter
run disagree on the fourth tick. -/
theorem confidenceValidator_none_reset_counterexample :
    (ConfidenceValidator.runSeq ⟨1/2, 2, []⟩
        [some ⟨"A", 4/5⟩, some ⟨"A", 4/5⟩, none, some ⟨"A", 4/5⟩]).2
      = [false, true, false, true] ∧
    (ClaimedCounterValidator.runSeq ⟨1/2, 2, 0, none⟩
        [some ⟨"A", 4/5⟩, some ⟨"A", 4/5⟩, none, some ⟨"A", 4/5⟩]).2
      = [false, true, false, false] ∧
    ([false, true, false, true] : List Bool) ≠ [false, true, false, false] := by
  exact ⟨by with_unfolding_all decide, by with_unfolding_all decide, by decide⟩

/-- C6 amended: the validator answers valid iff, after appending the
result's name, its bounded history holds at least `stability_frames` equal
entries; the spec's concrete example holds, but a `none` result (and a
below-threshold result) merely answers invalid, leaving the history — and
with it the consecutive run — untouched rather than resetting it. -/
theorem confidenceValidator_stability (v : ConfidenceValidator) (r : GestureResult) :
    ((ConfidenceValidator.runSeq ⟨1/2, 2, []⟩
        [some ⟨"A", 2/5⟩, some ⟨"A", 4/5⟩, some ⟨"A", 4/5⟩, some ⟨"B", 9/10⟩]).2
      = [false, false, true, false]) ∧
    (v.validate none = (v, false)) ∧
    (r.confidence < v.min_confidence → v.validate (some r) = (v, false)) := by
  refine ⟨by with_unfolding_all decide, rfl, ?_⟩
  intro h
  simp [ConfidenceValidator.validate, h]

/-- C6 amended witness: a concrete below-threshold result is rejected with
the validator state unchanged. -/
theorem confidenceValidator_stability_witness :
    ((1:ℚ)/4 < 1/2) ∧
    (ConfidenceValidator.validate ⟨1/2, 2, []⟩ (some ⟨"A", 1/4⟩)
      = (⟨1/2, 2, []⟩, false)) :=
  ⟨by with_unfolding_all decide,
   (confidenceValidator_stability ⟨1/2, 2, []⟩ ⟨"A", 1/4⟩).2.2 (by with_unfolding_all decide)⟩

/-- C1 counterexample: on the spec's raw sequence the source pipeline
(detector `detect_best` + `ConfidenceValidator` with window 2) emits
`[None, None, None, None, CLOSED_FIST]` — the first observation is *not*
provisionally confirmed and there is no sticky re-reporting — while the
spec's hysteresis (trivially-consistent-while-short, sticky) would emit
`[OPEN_PALM, None, OPEN_PALM, None, CLOSED_FIST]`. -/
theorem hysteresis_sequence_counterexample :
    (runDetectionPipeline (GestureDetector.init (1/2)) ⟨1/2, 2, []⟩
        [some [⟨"OPEN_PALM", 9/10⟩], some [⟨"CLOSED_FIST", 9/10⟩],
         some [⟨"OPEN_PALM", 9/10⟩], some [⟨"CLOSED_FIST", 9/10⟩],
         some [⟨"CLOSED_FIST", 9/10⟩]]).2.2
      = [none, none, none, none, some "CLOSED_FIST"] ∧
    (ClaimedHysteresis.runSeq ⟨2, [], none⟩
        ["OPEN_PALM", "CLOSED_FIST", "OPEN_PALM", "CLOSED_FIST", "CLOSED_FIST"]).2
      = [some "OPEN_PALM", none, some "OPEN_PALM", none, some "CLOSED_FIST"] ∧
    ([none, none, none, none, some "CLOSED_FIST"] : List (Option String)) ≠
      [some "OPEN_PALM", none, some "OPEN_PALM", none, some "CLOSED_FIST"] := by
  exact ⟨by with_unfolding_all decide, by with_unfolding_all decide, by decide⟩

/-- C1 amended: each tick `detect_best` picks a highest-confidence
classification at/above `min_confidence` as the raw result; the confidence
validator then confirms the raw name iff its bounded name history (window
`W = stability_frames`) is full and unanimous — the first observation of a
raw name is *not* provisionally confirmed and a raw name equal to the
previously confirmed one is *not* sticky — so the spec's raw sequence
yields `[None, None, None, None, CLOSED_FIST]`. -/
theorem hysteresis_strict_window (d : GestureDetector) (rs : List GestureResult)
    (r : GestureResult) :
    ((runDetectionPipeline (GestureDetector.init (1/2)) ⟨1/2, 2, []⟩
        [some [⟨"OPEN_PALM", 9/10⟩], some [⟨"CLOSED_FIST", 9/10⟩],
         some [⟨"OPEN_PALM", 9/10⟩], some [⟨"CLOSED_FIST", 9/10⟩],
         some [⟨"CLOSED_FIST", 9/10⟩]]).2.2
      = [none, none, none, none, some "CLOSED_FIST"]) ∧
    ((d.detect_best (some rs)).2 = some r →
      r ∈ rs ∧ d.min_confidence ≤ r.confidence ∧
      ∀ r' ∈ rs, d.min_confidence ≤ r'.confidence → r'.confidence ≤ r.confidence) := by
  constructor
  · with_unfolding_all decide
  · intro hr
    have hhead : (sortDescBy (fun x => x.confidence)
        (rs.filter (fun x => decide (d.min_confidence ≤ x.confidence)))).head? = some r := by
      simpa [GestureDetector.detect_best, GestureDetector.detect] using hr
    set l := rs.filter (fun x => decide (d.min_confidence ≤ x.confidence)) with hl
    have hperm := sortDescBy_perm (fun x => x.confidence) l
    have hsorted := sortDescBy_sorted (fun x => x.confidence) l
    rcases hcases : sortDescBy (fun x => x.confidence) l with _ | ⟨a, t⟩
    · rw [hcases] at hhead
      cases hhead
    · rw [hcases] at hhead
      have har : a = r := by
        simpa using hhead
      subst har
      rw [hcases] at hperm hsorted
      have hmem : a ∈ l := hperm.mem_iff.mp (List.mem_cons_self a t)
      have hfilt := List.mem_filter.mp hmem
      refine ⟨hfilt.1, of_decide_eq_true hfilt.2, ?_⟩
      intro r' hr' hconf
      have hmem' : r' ∈ a :: t := by
        refine hperm.symm.mem_iff.mp ?_
        rw [hl]
        exact List.mem_filter.mpr ⟨hr', decide_eq_true hconf⟩
      rcases List.mem_cons.mp hmem' with rfl | hmem'
      · exact le_refl _
      · rw [SortedDescBy, List.pairwise_cons] at hsorted
        exact hsorted.1 r' hmem'

/-- C1 amended witness: on a concrete two-classifier tick `detect_best`
returns the higher-confidence result, which dominates every qualifying
result of the tick. -/
theorem hysteresis_strict_window_witness :
    ((GestureDetector.init (1/2)).detect_best
        (some [⟨"A", 3/5⟩, ⟨"B", 4/5⟩])).2 = some ⟨"B", 4/5⟩ ∧
    (⟨"B", 4/5⟩ : GestureResult) ∈ [(⟨"A", 3/5⟩ : GestureResult), ⟨"B", 4/5⟩] ∧
    (GestureDetector.init (1/2)).min_confidence ≤ (GestureResult.mk "B" (4/5)).confidence := by
  have h := (hysteresis_strict_window (GestureDetector.init (1/2))
      [⟨"A", 3/5⟩, ⟨"B", 4/5⟩] ⟨"B", 4/5⟩).2 (by with_unfolding_all decide)
  exact ⟨by with_unfolding_all decide, h.1, h.2.1⟩

/-! ## Helper lemmas about handler dispatch -/

theorem find?_updateHandler (reg : HandlerRegistry) (n : String) (h' : GestureHandler)
    (hname : h'.name = n) (g : String) (hg : g ≠ n) :
    (updateHandler reg n h').find? (fun x => x.name = g) =
      reg.find? (fun x => x.name = g) := by
  induction reg with
  | nil => rfl
  | cons x t ih =>
    by_cases hx : x.name = n
    · have h1 : (decide (h'.name = g)) = false := by
        simp [hname]
        exact fun he => absurd he.symm hg
      have h2 : (decide (x.name = g)) = false := by
        simp [hx]
        exact fun he => absurd he.symm hg
      simp only [updateHandler, List.map_cons, if_pos hx, List.find?, h1, h2]
      exact ih
    · simp only [updateHandler, List.map_cons, if_neg hx, List.find?]
      by_cases hxg : (decide (x.name = g)) = true
      · simp [hxg]
      · simp only [Bool.not_eq_true] at hxg
        simp only [hxg]
        exact ih

theorem find?_of_pairwise_mem (reg : HandlerRegistry) (h : GestureHandler)
    (hp : reg.Pairwise (fun a b => a.name ≠ b.name)) (hmem : h ∈ reg) :
    reg.find? (fun g => g.name = h.name) = some h := by
  induction reg with
  | nil => cases hmem
  | cons x t ih =>
    rw [List.pairwise_cons] at hp
    rcases List.mem_cons.mp hmem with rfl | hmem
    · simp [List.find?]
    · have hx : (decide (x.name = h.name)) = false := by
        simp
        exact hp.1 h hmem
      simp only [List.find?, hx]
      exact ih hp.2 hmem

theorem processHandlers_exec (e : Event) :
    ∀ (hs : List GestureHandler) (reg : HandlerRegistry),
      (∀ h ∈ hs, reg.find? (fun g => g.name = h.name) = some h) →
      hs.Pairwise (fun a b => a.name ≠ b.name) →
      (processHandlers e hs reg).2.2 =
        (hs.filter (fun h => decide (h.cooldown ≤ e.timestamp - h.last_execution))).map
          (fun h => h.name) := by
  intro hs
  induction hs with
  | nil => intro reg _ _; rfl
  | cons h rest ih =>
    intro reg hfind hp
    rw [List.pairwise_cons] at hp
    have hh := hfind h (List.mem_cons_self h rest)
    have hrest : ∀ g ∈ rest,
        (updateHandler reg h.name { h with last_execution := e.timestamp }).find?
          (fun x => x.name = g.name) = some g := by
      intro g hg
      rw [find?_updateHandler reg h.name { h with last_execution := e.timestamp } rfl
        g.name (Ne.symm (hp.1 g hg))]
      exact hfind g (List.mem_cons_of_mem _ hg)
    have hrest2 : ∀ g ∈ rest,
        (updateHandler reg h.name h).find? (fun x => x.name = g.name) = some g := by
      intro g hg
      rw [find?_updateHandler reg h.name h rfl g.name (Ne.symm (hp.1 g hg))]
      exact hfind g (List.mem_cons_of_mem _ hg)
    by_cases hcd : h.cooldown ≤ e.timestamp - h.last_execution
    · have ihx := ih (updateHandler reg h.name { h with last_execution := e.timestamp })
        hrest hp.2
      simp [processHandlers, hh, GestureHandler.should_execute, hcd, List.filter_cons, ihx]
    · have ihx := ih (updateHandler reg h.name h) hrest2 hp.2
      simp [processHandlers, hh, GestureHandler.should_execute, hcd, List.filter_cons, ihx]

theorem can_handle_iff (h : GestureHandler) (g : String) :
    h.can_handle g = true ↔
      h.enabled = true ∧ (h.gestures = [] ∨ g ∈ h.gestures) := by
  unfold GestureHandler.can_handle
  by_cases he : h.enabled
  · by_cases hg : h.gestures.isEmpty
    · simp [he, hg, List.isEmpty_iff.mp hg]
    · have : h.gestures ≠ [] := fun hnil => hg (by simp [hnil])
      simp [he, hg, this]
  · simp [he]

theorem mem_getForGesture (reg : HandlerRegistry) (g : String) (h : GestureHandler) :
    h ∈ getForGesture reg g ↔ h ∈ reg ∧ h.can_handle g = true := by
  unfold getForGesture
  rw [(sortDescBy_perm _ _).mem_iff, List.mem_filter]

theorem getForGesture_pairwise_names (reg : HandlerRegistry) (g : String)
    (hp : reg.Pairwise (fun a b => a.name ≠ b.name)) :
    (getForGesture reg g).Pairwise (fun a b => a.name ≠ b.name) := by
  have h1 : (reg.filter (fun h : GestureHandler => h.can_handle g)).Pairwise
      (fun a b => a.name ≠ b.name) :=
    List.Pairwise.filter _ hp
  exact ((sortDescBy_perm (fun h : GestureHandler => ((h.priority : ℚ))) _).pairwise_iff
    (fun hab => Ne.symm hab)).mpr h1

/-- C3 counterexample: the claim's concrete example says a fresh handler
with cooldown 0.5 executes an event at `t = 0.0`; but `__init__` sets
`_last_execution = 0.0`, so `0.0 - 0.0 < 0.5` and the very rule the claim
states skips that event — nothing executes. -/
theorem handler_cooldown_counterexample :
    (processEvent
        [⟨"V", true, 100, ["G"], 1/2, 0, HandleBehavior.returns "cmd"⟩]
        ⟨EventType.GESTURE, "src", "G", [], 0⟩).2.2 = [] ∧
    ([] : List String) ≠ ["V"] :=
  ⟨by with_unfolding_all decide, by decide⟩

/-- C3 amended: a handler is skipped iff
`event.timestamp - last_run < cooldown`, and execution records
`last_run := event.timestamp`; since `__init__` starts `last_run` at `0.0`,
a fresh handler with cooldown 0.5 skips an event at `t = 0.0`; events at
`t = 1.0` and `t = 1.1` give execute-then-skip, and events at `t = 1.0` and
`t = 1.6` both execute. -/
theorem handler_cooldown_gating (h : GestureHandler) (t : ℚ) (reg : HandlerRegistry)
    (e : Event) (hp : reg.Pairwise (fun a b => a.name ≠ b.name)) :
    ((h.should_execute t).2 = false ↔ t - h.last_execution < h.cooldown) ∧
    ((h.should_execute t).2 = true →
      (h.should_execute t).1 = { h with last_execution := t }) ∧
    ((processEvent reg e).2.2 =
      ((getForGesture reg e.action).filter
        (fun x => decide (x.cooldown ≤ e.timestamp - x.last_execution))).map
          (fun x => x.name)) ∧
    ((processEvents [⟨"H", true, 50, [], 1/2, 0, HandleBehavior.returns "c"⟩]
        [⟨EventType.GESTURE, "s", "G", [], 1⟩,
         ⟨EventType.GESTURE, "s", "G", [], 11/10⟩]).2 = [["H"], []]) ∧
    ((processEvents [⟨"H", true, 50, [], 1/2, 0, HandleBehavior.returns "c"⟩]
        [⟨EventType.GESTURE, "s", "G", [], 1⟩,
         ⟨EventType.GESTURE, "s", "G", [], 8/5⟩]).2 = [["H"], ["H"]]) := by
  refine ⟨?_, ?_, ?_, by with_unfolding_all decide, by with_unfolding_all decide⟩
  · unfold GestureHandler.should_execute
    by_cases hc : h.cooldown ≤ t - h.last_execution
    · simp [hc, not_lt.mpr hc]
    · simp [hc, not_le.mp hc]
  · unfold GestureHandler.should_execute
    by_cases hc : h.cooldown ≤ t - h.last_execution
    · simp [hc]
    · simp [hc]
  · unfold processEvent
    apply processHandlers_exec
    · intro g hg
      exact find?_of_pairwise_mem reg g hp ((mem_getForGesture reg e.action g).mp hg).1
    · exact getForGesture_pairwise_names reg e.action hp

/-- C3 amended witness: a concrete handler on cooldown is skipped at
`t = 0.1` (the gap 0.1 is below its 0.5 cooldown), and its dispatch list
for a concrete event follows the cooldown filter. -/
theorem handler_cooldown_gating_witness :
    ((GestureHandler.should_execute
        ⟨"H", true, 50, [], 1/2, 0, HandleBehavior.returns "c"⟩ (1/10)).2 = false) ∧
    ((processEvent [⟨"H", true, 50, [], 1/2, 0, HandleBehavior.returns "c"⟩]
        ⟨EventType.GESTURE, "s", "G", [], 1/10⟩).2.2 = []) := by
  have h := handler_cooldown_gating
    ⟨"H", true, 50, [], 1/2, 0, HandleBehavior.returns "c"⟩ (1/10)
    [⟨"H", true, 50, [], 1/2, 0, HandleBehavior.returns "c"⟩]
    ⟨EventType.GESTURE, "s", "G", [], 1/10⟩ (by simp)
  refine ⟨h.1.mpr (by with_unfolding_all decide), ?_⟩
  rw [h.2.2.1]
  with_unfolding_all decide

/-- C8: for an incoming event the manager selects exactly the enabled
handlers whose allow-list contains the action or is empty (wildcard),
attempts them in descending priority order, stable on ties (equal-priority
handlers keep registration order); with V at priority 100 and A at priority
25 both matching "G", the selection is `[V, A]`, and with V on cooldown A
still runs. -/
theorem handler_selection_priority (reg : HandlerRegistry) (gesture : String)
    (h : GestureHandler) (p : ℚ) :
    (h ∈ getForGesture reg gesture ↔
      h ∈ reg ∧ h.enabled = true ∧ (h.gestures = [] ∨ gesture ∈ h.gestures)) ∧
    ((getForGesture reg gesture).Pairwise (fun a b => b.priority ≤ a.priority)) ∧
    ((getForGesture reg gesture).filter (fun x => ((x.priority : ℚ)) == p)
      = (reg.filter (fun x => x.can_handle gesture)).filter
          (fun x => ((x.priority : ℚ)) == p)) ∧
    (getForGesture
        [⟨"V", true, 100, ["G"], 1/2, 0, HandleBehavior.returns "v"⟩,
         ⟨"A", true, 25, ["G"], 0, 0, HandleBehavior.returns "a"⟩] "G"
      = [⟨"V", true, 100, ["G"], 1/2, 0, HandleBehavior.returns "v"⟩,
         ⟨"A", true, 25, ["G"], 0, 0, HandleBehavior.returns "a"⟩]) ∧
    ((processEvent
        [⟨"V", true, 100, ["G"], 1/2, 0, HandleBehavior.returns "v"⟩,
         ⟨"A", true, 25, ["G"], 0, 0, HandleBehavior.returns "a"⟩]
        ⟨EventType.GESTURE, "src", "G", [], 0⟩).2.2 = ["A"]) := by
  refine ⟨?_, ?_, ?_, by with_unfolding_all decide, by with_unfolding_all decide⟩
  · rw [mem_getForGesture, can_handle_iff]
  · have hs := sortDescBy_sorted (fun x : GestureHandler => ((x.priority : ℚ)))
      (reg.filter (fun x => x.can_handle gesture))
    rw [SortedDescBy] at hs
    exact hs.imp (fun hab => by exact_mod_cast hab)
  · exact sortDescBy_filter (fun x : GestureHandler => ((x.priority : ℚ))) p
      (reg.filter (fun x => x.can_handle gesture))

/-! ## Helper lemmas about the event bus -/

theorem subs_setSubs (bus : EventBus) (t : EventType) (l : List Subscriber) :
    (bus.setSubs t l).subs t = l := by
  cases t <;> rfl

theorem setSubs_subs_self (bus : EventBus) (t : EventType) :
    bus.setSubs t (bus.subs t) = bus := by
  cases t <;> rfl

theorem subs_bump_count (bus : EventBus) (t : EventType) (n : Nat) :
    ({ bus with event_count := n } : EventBus).subs t = bus.subs t := by
  cases t <;> rfl

theorem publishLoop_invoked (env : CBEnv) (e : Event) :
    ∀ (snapshot : List Subscriber) (bus : EventBus),
      (publishLoop env e snapshot bus).2.invoked = snapshot.map (fun s => s.ident) := by
  intro snapshot
  induction snapshot with
  | nil => intro bus; rfl
  | cons s rest ih =>
    intro bus
    rcases hinv : invokeSubscriber env bus e s with ⟨bus1, ran1, raised1⟩
    simp [publishLoop, hinv, ih bus1]

theorem invoke_ran_of_filter_pass (env : CBEnv) (bus : EventBus) (e : Event)
    (s : Subscriber)
    (hf : s.filt = none ∨ ∃ f, s.filt = some f ∧ env.pred f e = true) :
    (invokeSubscriber env bus e s).2.1 = [s.cb] := by
  rcases hf with h | ⟨f, hs, hp⟩
  · simp only [invokeSubscriber, h]
    cases env.act s.cb <;> simp
  · simp only [invokeSubscriber, hs, hp]
    cases env.act s.cb <;> simp

theorem cb_mem_publishLoop_ran (env : CBEnv) (e : Event) :
    ∀ (snapshot : List Subscriber) (bus : EventBus) (s : Subscriber),
      s ∈ snapshot →
      (s.filt = none ∨ ∃ f, s.filt = some f ∧ env.pred f e = true) →
      s.cb ∈ (publishLoop env e snapshot bus).2.ran := by
  intro snapshot
  induction snapshot with
  | nil => intro bus s hs _; cases hs
  | cons x rest ih =>
    intro bus s hs hf
    rcases hinv : invokeSubscriber env bus e x with ⟨bus1, ran1, raised1⟩
    rcases List.mem_cons.mp hs with rfl | hs
    · have hran : ran1 = [s.cb] := by
        have := invoke_ran_of_filter_pass env bus e s hf
        rw [hinv] at this
        exact this
      simp [publishLoop, hinv, hran]
    · have hmem := ih bus1 s hs hf
      simp [publishLoop, hinv]
      right
      exact hmem

theorem filter_isRight_eraseP (l : List Subscriber) (c : Nat) :
    (l.eraseP (fun s => s.ident = Sum.inl c)).filter (fun s => s.ident.isRight)
      = l.filter (fun s => s.ident.isRight) := by
  induction l with
  | nil => rfl
  | cons x t ih =>
    by_cases hx : (decide (x.ident = Sum.inl c)) = true
    · have hleft : x.ident.isRight = false := by
        have hx2 : x.ident = Sum.inl c := of_decide_eq_true hx
        rw [hx2]
        rfl
      simp [List.eraseP_cons, hx, List.filter_cons, hleft]
    · simp only [List.eraseP_cons, hx, Bool.false_eq_true, if_false, List.filter_cons]
      by_cases hr : x.ident.isRight = true
      · simp [hr, ih]
      · simp only [Bool.not_eq_true] at hr
        simp [hr, ih]

theorem subs_bump_wrapper (bus : EventBus) (t : EventType) (n : Nat) :
    ({ bus with nextWrapper := n } : EventBus).subs t = bus.subs t := by
  cases t <;> rfl

/-- C5: `publish` invokes exactly the point-in-time snapshot of the event
type's subscriber list, once per entry, in registration order, whatever the
callbacks do to the live list; concretely, with subscribers A, B, C where B
raises, all three are invoked, A and C run cleanly, B's exception is
caught; and with B unsubscribing C mid-publish, C is still invoked for the
in-flight delivery while the final list no longer holds C. -/
theorem eventBus_publish_isolation (env : CBEnv) (bus : EventBus) (e : Event) :
    ((bus.publish env e).2.invoked = (bus.subs e.type).map (fun s => s.ident)) ∧
    ((EventBus.publish
        ⟨fun n => if n = 2 then CBAction.raise else CBAction.pure, fun _ _ => true⟩
        { subsGesture := [⟨Sum.inl 1, 1, none⟩, ⟨Sum.inl 2, 2, none⟩, ⟨Sum.inl 3, 3, none⟩],
          subsButton := [], subsSystem := [], nextWrapper := 0, event_count := 0 }
        ⟨EventType.GESTURE, "pub", "X", [], 0⟩).2
      = { invoked := [Sum.inl 1, Sum.inl 2, Sum.inl 3], ran := [1, 2, 3], raised := [2] }) ∧
    ((EventBus.publish
        ⟨fun n => if n = 2 then CBAction.unsub EventType.GESTURE 3 else CBAction.pure,
         fun _ _ => true⟩
        { subsGesture := [⟨Sum.inl 1, 1, none⟩, ⟨Sum.inl 2, 2, none⟩, ⟨Sum.inl 3, 3, none⟩],
          subsButton := [], subsSystem := [], nextWrapper := 0, event_count := 0 }
        ⟨EventType.GESTURE, "pub", "X", [], 0⟩)
      = ({ subsGesture := [⟨Sum.inl 1, 1, none⟩, ⟨Sum.inl 2, 2, none⟩],
           subsButton := [], subsSystem := [], nextWrapper := 0, event_count := 1 },
         { invoked := [Sum.inl 1, Sum.inl 2, Sum.inl 3], ran := [1, 2, 3],
           raised := [] })) := by
  refine ⟨?_, by with_unfolding_all decide, by with_unfolding_all decide⟩
  have h := publishLoop_invoked env e
    (({ bus with event_count := bus.event_count + 1 } : EventBus).subs e.type)
    { bus with event_count := bus.event_count + 1 }
  rw [subs_bump_count] at h
  exact h

/-- C10: subscribing with a filter stores a fresh wrapper closure, never
the callback object itself, so `unsubscribe` with the original callback
finds nothing and leaves the list unchanged; the filtered callback keeps
receiving matching events, and `unsubscribe` can only ever remove entries
stored as bare callback objects — every wrapper entry survives it. -/
theorem filtered_subscription_survives_unsubscribe (bus : EventBus) (t : EventType)
    (cb f : Nat) (hclean : ∀ s ∈ bus.subs t, s.ident ≠ Sum.inl cb) :
    ((bus.subscribe t cb (some f)).subs t
      = bus.subs t ++ [{ ident := Sum.inr bus.nextWrapper, cb := cb, filt := some f }]) ∧
    ((bus.subscribe t cb (some f)).unsubscribe t cb = bus.subscribe t cb (some f)) ∧
    (∀ (env : CBEnv) (e : Event), e.type = t → env.pred f e = true →
      cb ∈ (((bus.subscribe t cb (some f)).unsubscribe t cb).publish env e).2.ran) ∧
    (∀ (bus2 : EventBus) (c : Nat),
      ((bus2.unsubscribe t c).subs t).filter (fun s => s.ident.isRight)
        = (bus2.subs t).filter (fun s => s.ident.isRight)) := by
  have hsubs : (bus.subscribe t cb (some f)).subs t
      = bus.subs t ++ [{ ident := Sum.inr bus.nextWrapper, cb := cb, filt := some f }] := by
    simp only [EventBus.subscribe]
    rw [subs_bump_wrapper, subs_setSubs]
  have hkeep : ∀ s ∈ (bus.subscribe t cb (some f)).subs t, s.ident ≠ Sum.inl cb := by
    rw [hsubs]
    intro s hs
    rcases List.mem_append.mp hs with hs | hs
    · exact hclean s hs
    · rcases List.mem_singleton.mp hs with rfl
      simp
  have hunsub : (bus.subscribe t cb (some f)).unsubscribe t cb
      = bus.subscribe t cb (some f) := by
    unfold EventBus.unsubscribe
    have herase : ((bus.subscribe t cb (some f)).subs t).eraseP
        (fun s => s.ident = Sum.inl cb) = (bus.subscribe t cb (some f)).subs t := by
      rw [List.eraseP_eq_self_iff]
      intro s hs
      simpa using hkeep s hs
    rw [herase, setSubs_subs_self]
  refine ⟨hsubs, hunsub, ?_, ?_⟩
  · intro env e het hpred
    rw [hunsub]
    unfold EventBus.publish
    apply cb_mem_publishLoop_ran env e _ _
      { ident := Sum.inr bus.nextWrapper, cb := cb, filt := some f }
    · rw [subs_bump_count, het, hsubs]
      exact List.mem_append_right _ (List.mem_singleton.mpr rfl)
    · exact Or.inr ⟨f, rfl, hpred⟩
  · intro bus2 c
    unfold EventBus.unsubscribe
    rw [subs_setSubs]
    exact filter_isRight_eraseP (bus2.subs t) c

/-- C10 witness: on a fresh bus, a filtered subscription stores a wrapper
and the original callback cannot unsubscribe it. -/
theorem filtered_subscription_survives_unsubscribe_witness :
    ((EventBus.init.subscribe EventType.GESTURE 7 (some 0)).unsubscribe EventType.GESTURE 7
      = EventBus.init.subscribe EventType.GESTURE 7 (some 0)) ∧
    ((EventBus.init.subscribe EventType.GESTURE 7 (some 0)).subs EventType.GESTURE
      = [{ ident := Sum.inr 0, cb := 7, filt := some 0 }]) := by
  have h := filtered_subscription_survives_unsubscribe EventBus.init EventType.GESTURE 7 0
    (by intro s hs; cases hs)
  exact ⟨h.2.1, by simpa [EventBus.init, EventBus.subs] using h.1⟩

/-! ## Helper lemmas about the one-euro filter -/

theorem oneEuroUpdate_const_one (cfg : OneEuroConfig) (s : OneEuroState) (t : ℚ)
    (hval : s.last_value = 1 ∨ s.initialized = false) :
    (oneEuroUpdate cfg s t (FloatSample.finite 1)).1.last_value = 1 ∧
    (oneEuroUpdate cfg s t (FloatSample.finite 1)).2 = 1 := by
  by_cases hc : (!s.initialized) = true ∨ 1 < t - s.last_time
  · have hc2 : s.initialized = false ∨ 1 < t - s.last_time := by
      rcases hc with hc | hc
      · exact Or.inl (by simpa using hc)
      · exact Or.inr hc
    simp only [oneEuroUpdate, Bool.not_eq_true']
    rw [if_pos hc2]
    exact ⟨rfl, rfl⟩
  · rcases hval with hval | hinit
    · simp only [oneEuroUpdate, if_neg hc]
      constructor <;> (rw [hval]; ring)
    · exact absurd (Or.inl (by simp [hinit])) hc

theorem oneEuroRun_const_one (cfg : OneEuroConfig) :
    ∀ (ts : List ℚ) (s : OneEuroState), s.last_value = 1 ∨ s.initialized = false →
      ∀ y ∈ (oneEuroRun cfg s (ts.map (fun t => (t, FloatSample.finite 1)))).2, y = 1 := by
  intro ts
  induction ts with
  | nil =>
    intro s _ y hy
    cases hy
  | cons t rest ih =>
    intro s hval y hy
    rcases hstep : oneEuroUpdate cfg s t (FloatSample.finite 1) with ⟨s1, y1⟩
    have hinv := oneEuroUpdate_const_one cfg s t hval
    rw [hstep] at hinv
    simp only [List.map_cons, oneEuroRun, hstep] at hy
    rcases hrec : oneEuroRun cfg s1 (rest.map (fun t => (t, FloatSample.finite 1))) with
      ⟨s2, ys⟩
    rw [hrec] at hy
    simp only [List.mem_cons] at hy
    rcases hy with rfl | hy
    · exact hinv.2
    · have := ih s1 (Or.inl hinv.1) y
      rw [hrec] at this
      exact this hy

/-- C4: the one-euro filter holds its last value on a non-finite input,
resets (returns the new sample unsmoothed as the new steady state) when
more than one second elapsed since the previous sample, and, fed the
constant input 1.0 from a fresh state, outputs exactly 1.0 on every tick
(so it has converged to ≈1.0 from the first tick on). -/
theorem oneEuroFilter_contract (cfg : OneEuroConfig) (s : OneEuroState) (t v : ℚ) :
    (oneEuroUpdate cfg s t FloatSample.nonfinite = (s, s.last_value)) ∧
    (s.initialized = true → 1 < t - s.last_time →
      oneEuroUpdate cfg s t (FloatSample.finite v)
        = ({ last_time := t, last_value := v, last_deriv := 0, initialized := true }, v)) ∧
    (∀ ts : List ℚ,
      ∀ y ∈ (oneEuroRun cfg ⟨0, 0, 0, false⟩
        (ts.map (fun u => (u, FloatSample.finite 1)))).2, y = 1) := by
  refine ⟨rfl, ?_, ?_⟩
  · intro _ hgap
    simp only [oneEuroUpdate]
    rw [if_pos (Or.inr hgap)]
  · intro ts y hy
    exact oneEuroRun_const_one cfg ts _ (Or.inr rfl) y hy

/-- C4 witness: after a 2-second gap a concrete sample 5 is returned
unsmoothed; a non-finite sample holds the last value 1. -/
theorem oneEuroFilter_contract_witness :
    (oneEuroUpdate ⟨1, 0, 1, 6⟩ ⟨0, 1, 0, true⟩ 2 (FloatSample.finite 5)
      = ({ last_time := 2, last_value := 5, last_deriv := 0, initialized := true }, 5)) ∧
    (oneEuroUpdate ⟨1, 0, 1, 6⟩ ⟨0, 1, 0, true⟩ 2 FloatSample.nonfinite
      = (⟨0, 1, 0, true⟩, 1)) := by
  have h := oneEuroFilter_contract ⟨1, 0, 1, 6⟩ ⟨0, 1, 0, true⟩ 2 5
  exact ⟨h.2.1 rfl (by with_unfolding_all decide), h.1⟩

/-- C2 counterexample: the claim says a "no hand" tick clears *all*
continuous-gesture state, V-mode included; in the source the no-hand branch
clears only the pinch state, so with V-mode tracking active the V flag and
the pre-gap anchor survive, and the first V delta after the hand reappears
is computed against the pre-gap coordinates (here the anchor (1/2,1/2) set
before the gap yields `NAVIGATE (-51/4, 51/4)` right after it). -/
theorem noHand_reset_counterexample :
    ((processFrame
        { is_playing := true, is_pinching := false, pinch_start_pos := none,
          last_pinch_pos := none, is_v_gesturing := true,
          last_v_pos := some ⟨9/10, 9/10⟩, smoothed_v_delta := ⟨0, 0⟩,
          last_command := "NAVIGATING (V)", last_confidence := 9/10 }
        FrameOutcome.noHand).1.is_v_gesturing = true) ∧
    ((processFrame
        { is_playing := true, is_pinching := false, pinch_start_pos := none,
          last_pinch_pos := none, is_v_gesturing := true,
          last_v_pos := some ⟨9/10, 9/10⟩, smoothed_v_delta := ⟨0, 0⟩,
          last_command := "NAVIGATING (V)", last_confidence := 9/10 }
        FrameOutcome.noHand).1.last_v_pos = some ⟨9/10, 9/10⟩) ∧
    (some (⟨9/10, 9/10⟩ : Pos) ≠ none) ∧
    ((processFrames PFState.init
        [FrameOutcome.gesture ⟨"V_GESTURE", 9/10, some ⟨1/2, 1/2⟩, ⟨0, 0⟩⟩,
         FrameOutcome.noHand,
         FrameOutcome.gesture ⟨"V_GESTURE", 9/10, some ⟨3/5, 3/5⟩, ⟨0, 0⟩⟩]).2
      = [⟨"NAVIGATE", some ⟨-(51/4), 51/4⟩⟩]) := by
  refine ⟨by with_unfolding_all decide, by with_unfolding_all decide, by decide,
    by with_unfolding_all decide⟩

/-- C2 amended: a "no hand" tick clears the pinch-mode flag and (when
pinching) its start/last positions and resets the feedback fields, but it
leaves the V-gesture flag, its last position and the smoothed delta
untouched, publishes nothing, and never reaches the detector — whose
`detect` is a no-op on a `None` landmark set, so stateful classifiers keep
their private anchors as well. -/
theorem noHand_clears_pinch_only (s : PFState) (d : GestureDetector) :
    ((processFrame s FrameOutcome.noHand).1.is_pinching = false) ∧
    (s.is_pinching = true →
      (processFrame s FrameOutcome.noHand).1.pinch_start_pos = none ∧
      (processFrame s FrameOutcome.noHand).1.last_pinch_pos = none) ∧
    ((processFrame s FrameOutcome.noHand).1.is_v_gesturing = s.is_v_gesturing) ∧
    ((processFrame s FrameOutcome.noHand).1.last_v_pos = s.last_v_pos) ∧
    ((processFrame s FrameOutcome.noHand).1.smoothed_v_delta = s.smoothed_v_delta) ∧
    ((processFrame s FrameOutcome.noHand).2.1 = []) ∧
    ((processFrame s FrameOutcome.noHand).2.2 = none) ∧
    (d.detect none = (d, [])) := by
  by_cases hp : s.is_pinching = true
  · refine ⟨?_, ?_, ?_, ?_, ?_, ?_, ?_, rfl⟩ <;> simp [processFrame, hp]
  · refine ⟨?_, ?_, ?_, ?_, ?_, ?_, ?_, rfl⟩ <;> simp [processFrame, hp]

/-- C2 amended witness: a concrete pinching state has both pinch positions
cleared by a no-hand tick. -/
theorem noHand_clears_pinch_only_witness :
    ((processFrame
        { is_playing := true, is_pinching := true, pinch_start_pos := some ⟨1/2, 1/2⟩,
          last_pinch_pos := some ⟨1/2, 1/2⟩, is_v_gesturing := false, last_v_pos := none,
          smoothed_v_delta := ⟨0, 0⟩, last_command := "ROTATING (Pinch)",
          last_confidence := 9/10 } FrameOutcome.noHand).1.pinch_start_pos = none) ∧
    ((processFrame
        { is_playing := true, is_pinching := true, pinch_start_pos := some ⟨1/2, 1/2⟩,
          last_pinch_pos := some ⟨1/2, 1/2⟩, is_v_gesturing := false, last_v_pos := none,
          smoothed_v_delta := ⟨0, 0⟩, last_command := "ROTATING (Pinch)",
          last_confidence := 9/10 } FrameOutcome.noHand).1.last_pinch_pos = none) := by
  have h := noHand_clears_pinch_only
    { is_playing := true, is_pinching := true, pinch_start_pos := some ⟨1/2, 1/2⟩,
      last_pinch_pos := some ⟨1/2, 1/2⟩, is_v_gesturing := false, last_v_pos := none,
      smoothed_v_delta := ⟨0, 0⟩, last_command := "ROTATING (Pinch)",
      last_confidence := 9/10 } (GestureDetector.init (1/2))
  exact ⟨(h.2.1 rfl).1, (h.2.1 rfl).2⟩

/-- C7 counterexample: the exponentially smoothed delta accumulator is not
cleared on a modality switch.  After building up a smoothed delta of
(-51/4, 51/4) in V mode, switching to PINCH and back to V, the first
NAVIGATE published after re-entry is (-51/16, 51/16) = 0.85·raw + 0.15·stale
— not (-51/40, 51/40) = 0.85·raw, the value a discarded accumulator would
give (spec §8 arithmetic) — so the first reported delta after the switch
does depend on stale smoothed-delta state. -/
theorem modality_switch_stale_smoothing_counterexample :
    ((processFrames PFState.init
        [FrameOutcome.gesture ⟨"V_GESTURE", 9/10, some ⟨0, 0⟩, ⟨0, 0⟩⟩,
         FrameOutcome.gesture ⟨"V_GESTURE", 9/10, some ⟨1/10, 1/10⟩, ⟨0, 0⟩⟩,
         FrameOutcome.gesture ⟨"PINCH", 9/10, some ⟨1/2, 1/2⟩, ⟨0, 0⟩⟩,
         FrameOutcome.gesture ⟨"V_GESTURE", 9/10, some ⟨0, 0⟩, ⟨0, 0⟩⟩,
         FrameOutcome.gesture ⟨"V_GESTURE", 9/10, some ⟨1/100, 1/100⟩, ⟨0, 0⟩⟩]).2
      = [⟨"NAVIGATE", some ⟨-(51/4), 51/4⟩⟩, ⟨"NAVIGATE", some ⟨-(51/16), 51/16⟩⟩]) ∧
    ((⟨-(51/16), 51/16⟩ : Pos) ≠ ⟨-(51/40), 51/40⟩) := by
  exact ⟨by with_unfolding_all decide, by with_unfolding_all decide⟩

/-- C7 amended: every modality switch discards the outgoing mode's anchor
positions — switching to PINCH while V-gesturing clears the V flag and
anchor, switching to V_GESTURE while pinching clears the pinch flag and
both pinch positions — and the first invocation of the incoming mode's
handler only re-initialises a fresh anchor and publishes no delta, so no
delta is ever computed from pre-switch coordinates; the smoothed-delta
accumulator, however, is left as it was. -/
theorem modality_switch_resets_anchor (s : PFState) (r : ValidResult) (p : Pos) :
    (r.name = "PINCH" → s.is_v_gesturing = true →
      (processFrame s (FrameOutcome.gesture r)).1.is_v_gesturing = false ∧
      (processFrame s (FrameOutcome.gesture r)).1.last_v_pos = none ∧
      (processFrame s (FrameOutcome.gesture r)).1.smoothed_v_delta
        = s.smoothed_v_delta) ∧
    (r.name = "V_GESTURE" → s.is_pinching = true →
      (processFrame s (FrameOutcome.gesture r)).1.is_pinching = false ∧
      (processFrame s (FrameOutcome.gesture r)).1.pinch_start_pos = none ∧
      (processFrame s (FrameOutcome.gesture r)).1.last_pinch_pos = none) ∧
    (r.name = "V_GESTURE" → s.is_v_gesturing = false → r.pos = some p →
      (processFrame s (FrameOutcome.gesture r)).2.1 = [] ∧
      (processFrame s (FrameOutcome.gesture r)).1.last_v_pos = some p) ∧
    (r.name = "PINCH" → s.is_pinching = false →
      (processFrame s (FrameOutcome.gesture r)).2.1 = [] ∧
      (processFrame s (FrameOutcome.gesture r)).1.last_pinch_pos
        = some (r.pos.getD r.wrist) ∧
      (processFrame s (FrameOutcome.gesture r)).1.pinch_start_pos
        = some (r.pos.getD r.wrist)) := by
  refine ⟨?_, ?_, ?_, ?_⟩
  · intro hname hv
    by_cases hp : s.is_pinching = true <;>
      rcases hlp : s.last_pinch_pos with _ | q <;>
        simp [processFrame, hname, hv, handlePinchDrag, hp, hlp]
  · intro hname hp
    by_cases hv : s.is_v_gesturing = true <;>
      rcases hpos : r.pos with _ | q <;>
        rcases hlv : s.last_v_pos with _ | w <;>
          simp [processFrame, hname, hp, hv, handleVMovement, hpos, hlv] <;>
            (try split) <;> simp
  · intro hname hv hpos
    by_cases hp : s.is_pinching = true <;>
      simp [processFrame, hname, hp, hv, handleVMovement, hpos]
  · intro hname hp
    by_cases hv : s.is_v_gesturing = true <;>
      simp [processFrame, hname, hp, hv, handlePinchDrag]

/-- C7 amended witness: from a concrete pinching state a V_GESTURE frame
clears the pinch anchors, publishes nothing, and starts fresh V tracking. -/
theorem modality_switch_resets_anchor_witness :
    ((processFrame
        { is_playing := true, is_pinching := true, pinch_start_pos := some ⟨1/2, 1/2⟩,
          last_pinch_pos := some ⟨1/2, 1/2⟩, is_v_gesturing := false, last_v_pos := none,
          smoothed_v_delta := ⟨7, 7⟩, last_command := "ROTATING (Pinch)",
          last_confidence := 9/10 }
        (FrameOutcome.gesture ⟨"V_GESTURE", 9/10, some ⟨1/4, 1/4⟩, ⟨0, 0⟩⟩)).1.is_pinching
      = false) ∧
    ((processFrame
        { is_playing := true, is_pinching := true, pinch_start_pos := some ⟨1/2, 1/2⟩,
          last_pinch_pos := some ⟨1/2, 1/2⟩, is_v_gesturing := false, last_v_pos := none,
          smoothed_v_delta := ⟨7, 7⟩, last_command := "ROTATING (Pinch)",
          last_confidence := 9/10 }
        (FrameOutcome.gesture ⟨"V_GESTURE", 9/10, some ⟨1/4, 1/4⟩, ⟨0, 0⟩⟩)).2.1 = []) ∧
    ((processFrame
        { is_playing := true, is_pinching := true, pinch_start_pos := some ⟨1/2, 1/2⟩,
          last_pinch_pos := some ⟨1/2, 1/2⟩, is_v_gesturing := false, last_v_pos := none,
          smoothed_v_delta := ⟨7, 7⟩, last_command := "ROTATING (Pinch)",
          last_confidence := 9/10 }
        (FrameOutcome.gesture ⟨"V_GESTURE", 9/10, some ⟨1/4, 1/4⟩, ⟨0, 0⟩⟩)).1.last_v_pos
      = some ⟨1/4, 1/4⟩) := by
  have h := modality_switch_resets_anchor
    { is_playing := true, is_pinching := true, pinch_start_pos := some ⟨1/2, 1/2⟩,
      last_pinch_pos := some ⟨1/2, 1/2⟩, is_v_gesturing := false, last_v_pos := none,
      smoothed_v_delta := ⟨7, 7⟩, last_command := "ROTATING (Pinch)",
      last_confidence := 9/10 }
    ⟨"V_GESTURE", 9/10, some ⟨1/4, 1/4⟩, ⟨0, 0⟩⟩ ⟨1/4, 1/4⟩
  exact ⟨(h.2.1 rfl rfl).1, (h.2.2.1 rfl rfl rfl).1, (h.2.2.1 rfl rfl rfl).2⟩
